import Mathlib

/-!
Verification of the MWALIMU HOMES invoice lifecycle engine and payment
matching engine, shallowly embedded from the TypeScript source
(`invoiceGeneration.ts`, the payment-matching part of `currency.ts`, and
the column types of `schema.ts`).

Modelling conventions, fixed once here:

* Monetary amounts.  Every money column in `schema.ts` is
  `decimal(10,2)` (MySQL `DECIMAL(10,2)`): values are exact decimals
  with two fractional digits, of absolute value below 10^8.  We
  represent such a value by its integer number of cents (`Int`).  The
  TypeScript generation code computes
  `parseFloat(rent) + parseFloat(service) + 0` in IEEE-754 doubles and
  stores `total.toString()` back into a `DECIMAL(10,2)` column.  For
  every pair of DECIMAL(10,2) inputs the double nearest to each input
  differs from it by at most 2^-53·10^8 < 1.2e-8, the rounded double sum
  differs from the exact sum by less than 5e-8, and the shortest
  round-tripping string printed by `Number.prototype.toString` differs
  from the double by less than 2.4e-8; MySQL then rounds the inserted
  string to the nearest multiple of 0.01.  Since the accumulated error
  (< 10^-7) is far below half a cent, the value stored in the column is
  exactly the cent-wise sum, so the whole pipeline is modelled by exact
  addition on cents.  (A sum overflowing DECIMAL(10,2) makes the insert
  throw, i.e. the run is not successful and is outside the claims'
  scope.)

* Timestamps.  The engine builds dates with `new Date(y, m, d)` where
  `d` is only ever 0, 1 or 10; `JsDate`/`mkDate` model exactly the
  ECMAScript calendar normalization for those arguments (month
  overflow carries into the year, day 0 borrows into the last day of
  the previous month).

* Strings.  All string manipulation is redefined over `List Char` /
  `String` so that every definition is executable and kernel-reducible;
  the inputs in scope are ASCII, on which these agree with the
  ECMAScript `toLowerCase`/`toUpperCase`/`trim`/`split` used by the
  source.

* The database handle.  `getDb()` returning `null` and thrown storage
  exceptions have no counterpart in a pure embedding; the store is a
  `DBState` record and each engine entry point is a pure state
  transformer returning `DBState × Option result`, where `none` models
  the code paths that `return;` with no result object.
-/

/-! ### ECMAScript-style character and string primitives -/

/-- ASCII lower-casing of one character, as `String.prototype.toLowerCase`
acts on the ASCII range. -/
def lowerChar (c : Char) : Char :=
  if 'A' ≤ c ∧ c ≤ 'Z' then Char.ofNat (c.toNat + 32) else c

/-- ASCII upper-casing of one character, as `String.prototype.toUpperCase`
acts on the ASCII range. -/
def upperChar (c : Char) : Char :=
  if 'a' ≤ c ∧ c ≤ 'z' then Char.ofNat (c.toNat - 32) else c

/-- Models `String.prototype.toLowerCase` on ASCII strings. -/
def jsToLower (s : String) : String := String.mk (s.toList.map lowerChar)

/-- Models `String.prototype.toUpperCase` on ASCII strings. -/
def jsToUpper (s : String) : String := String.mk (s.toList.map upperChar)

/-- The whitespace characters trimmed by `String.prototype.trim` that can
occur in the ASCII inputs in scope. -/
def isJsSpace (c : Char) : Bool :=
  c = ' ' ∨ c = '\t' ∨ c = '\n' ∨ c = '\r' ∨ c = '\x0b' ∨ c = '\x0c'

/-- Leading/trailing-whitespace removal on a character list. -/
def trimChars (l : List Char) : List Char :=
  ((l.dropWhile isJsSpace).reverse.dropWhile isJsSpace).reverse

/-- Models `String.prototype.trim` on ASCII strings. -/
def jsTrim (s : String) : String := String.mk (trimChars s.toList)

/-- Models `String.prototype.split(sep)` for a one-character separator: splits at
every occurrence and keeps empty segments, like the ECMAScript method. -/
def splitChars (sep : Char) : List Char → List (List Char)
  | [] => [[]]
  | c :: rest =>
    let r := splitChars sep rest
    if c = sep then [] :: r
    else
      match r with
      | h :: t => (c :: h) :: t
      | [] => [[c]]

/-- Whether `pat` is a prefix of `l` (helper for substring search). -/
def startsWithChars : List Char → List Char → Bool
  | _, [] => true
  | [], _ :: _ => false
  | c :: cs, p :: ps => c = p && startsWithChars cs ps

/-- Whether `pat` occurs as a contiguous substring of `l`, as
`String.prototype.includes`. -/
def containsChars (l pat : List Char) : Bool :=
  match l with
  | [] => pat.isEmpty
  | _ :: rest => startsWithChars l pat || containsChars rest pat

/-- Models `String.prototype.includes` on ASCII strings. -/
def jsIncludes (s pat : String) : Bool := containsChars s.toList pat.toList

/-! ### The ECMAScript `Date` fragment used by the engine -/

/-- A calendar date as produced by `new Date(year, month, day)`:
`month` is 0-based (0 = January) as in ECMAScript. -/
structure JsDate where
  year : Int
  month : Nat
  day : Nat
deriving DecidableEq, Repr

/-- Gregorian leap-year rule, as implemented by ECMAScript `Date`. -/
def isLeapYear (y : Int) : Bool :=
  y % 4 = 0 ∧ (y % 100 ≠ 0 ∨ y % 400 = 0)

/-- Number of days of 0-based month `m` of year `y` (ECMAScript
calendar). -/
def daysInMonth (y : Int) (m : Nat) : Nat :=
  [31, if isLeapYear y then 29 else 28, 31, 30, 31, 30, 31, 31, 30, 31, 30, 31].getD m 0

/-- Models `new Date(y, m, d)` for the arguments the engine uses: any 0-based
month `m` (overflow past 11 carries into the year, as ECMAScript
normalizes it) and a day `d` with `0 ≤ d ≤ daysInMonth` of the target
month — the source only ever passes `d` equal to 0, 1 or 10.  `d = 0`
denotes the last day of the preceding month, exactly the ECMAScript
behaviour. -/
def mkDate (y : Int) (m : Nat) (d : Nat) : JsDate :=
  let y1 : Int := y + (m / 12 : Nat)
  let m1 : Nat := m % 12
  if d = 0 then
    if m1 = 0 then ⟨y1 - 1, 11, daysInMonth (y1 - 1) 11⟩
    else ⟨y1, m1 - 1, daysInMonth y1 (m1 - 1)⟩
  else ⟨y1, m1, d⟩

/-- English month names, as `toLocaleString("default", { month: "long" })`
renders them in the default (`en`) locale the deployment runs in. -/
def monthLongName (m : Nat) : String :=
  ["January", "February", "March", "April", "May", "June", "July",
   "August", "September", "October", "November", "December"].getD m ""

/-- Models the `toLocaleString` month-year label,
e.g. `"January 2025"`. -/
def monthYearLabel (d : JsDate) : String :=
  monthLongName d.month ++ " " ++ toString d.year

/-! ### Data model (rows of `schema.ts` used by the two engines)

Money columns are `DECIMAL(10,2)` and are carried as integer cents, per
the conventions above.  Columns never read by the embedded code
(auto-increment row ids of pending invoices, `createdAt`, …) are
omitted. -/

/-- A row of the `leases` table (the fields `generateMonthlyInvoices`
reads). -/
structure Lease where
  id : Int
  monthlyRent : Int
  serviceCharge : Int
  status : String
deriving DecidableEq, Repr

/-- A row of the `pendingInvoices` table. -/
structure PendingInvoice where
  leaseId : Int
  invoiceNumber : String
  invoiceDate : JsDate
  dueDate : JsDate
  periodStart : JsDate
  periodEnd : JsDate
  rentAmount : Int
  serviceChargeAmount : Int
  utilitiesAmount : Int
  totalAmount : Int
  notes : String
  generationLogId : Int
deriving DecidableEq, Repr

/-- A row of the `invoices` table (fields written by the engine). -/
structure Invoice where
  leaseId : Int
  invoiceNumber : String
  invoiceDate : JsDate
  dueDate : JsDate
  periodStart : JsDate
  periodEnd : JsDate
  rentAmount : Int
  serviceChargeAmount : Int
  utilitiesAmount : Int
  totalAmount : Int
  paidAmount : Int
  status : String
  notes : String
deriving DecidableEq, Repr

/-- A row of the `invoiceGenerationLogs` table. -/
structure GenerationLog where
  id : Int
  invoicesGenerated : Int
  propertiesAffected : Int
  status : String
  details : String
deriving DecidableEq, Repr

/-- The relational store as seen by the two engines.  `nextLogId` is the
auto-increment counter of `invoiceGenerationLogs` that the MySQL driver
reports back as `insertId`. -/
structure DBState where
  leases : List Lease
  pendingInvoices : List PendingInvoice
  invoices : List Invoice
  generationLogs : List GenerationLog
  nextLogId : Int
deriving DecidableEq, Repr

/-! ### Invoice lifecycle engine (`invoiceGeneration.ts`) -/

/-- The result object of a successful `generateMonthlyInvoices` run. -/
structure GenerateResult where
  success : Bool
  invoicesGenerated : Nat
  propertiesAffected : Nat
  logId : Int
deriving DecidableEq, Repr

/-- The result object of a successful `finalizePendingInvoices` run. -/
structure FinalizeResult where
  success : Bool
  invoicesFinalized : Nat
deriving DecidableEq, Repr

/-- Models `String(n).padStart(2, "0")` for the 1-based month number. -/
def padTwo (n : Nat) : String :=
  if n < 10 then "0" ++ toString n else toString n

/-- One iteration of the generation loop: the pending-invoice row built
for `lease` when the run happens at date `now` with generation-log id
`logId`, where `suffix` is the 6-character `nanoid(6)` draw of this
iteration.

Field by field from the source: the invoice number is
`"INV-" + year + padded month + "-" + nanoid(6).toUpperCase()`; the
period is the first through last day of the current month; the due date
is the 10th of the next month; `rentAmount`/`serviceChargeAmount` copy
the lease columns, `utilitiesAmount` is the constant 0, `totalAmount`
their sum (exact on cents, see the header note on `DECIMAL(10,2)`). -/
def mkPendingInvoice (now : JsDate) (logId : Int) (suffix : String) (lease : Lease) :
    PendingInvoice :=
  let periodStart := mkDate now.year now.month 1
  { leaseId := lease.id
    invoiceNumber :=
      "INV-" ++ toString now.year ++ padTwo (now.month + 1) ++ "-" ++ jsToUpper suffix
    invoiceDate := now
    dueDate := mkDate now.year (now.month + 1) 10
    periodStart := periodStart
    periodEnd := mkDate now.year (now.month + 1) 0
    rentAmount := lease.monthlyRent
    serviceChargeAmount := lease.serviceCharge
    utilitiesAmount := 0
    totalAmount := lease.monthlyRent + lease.serviceCharge + 0
    notes := "Auto-generated invoice for " ++ monthYearLabel periodStart
    generationLogId := logId }

/-- The function `generateMonthlyInvoices` as a pure state transformer.  `now` is the
current date, `suffix i` the `nanoid(6)` draw of the `i`-th loop
iteration.  Returns the final store and the result object (`none` for
the `return;` paths: unavailable database is outside the pure model, and
the no-active-leases early return).  The `insertId || 1` coercion of the
source is kept: a zero/absent insert id falls back to 1. -/
def generateMonthlyInvoices (s : DBState) (now : JsDate) (suffix : Nat → String) :
    DBState × Option GenerateResult :=
  let activeLeases := s.leases.filter (fun l => l.status == "active")
  if activeLeases.isEmpty then (s, none)
  else
    let logId := if s.nextLogId == 0 then 1 else s.nextLogId
    let s1 := { s with
      generationLogs := s.generationLogs ++
        [({ id := logId, invoicesGenerated := 0, propertiesAffected := 0,
            status := "pending_review",
            details := "Invoice generation for " ++ monthYearLabel now } : GenerationLog)]
      nextLogId := s.nextLogId + 1 }
    let generatedInvoices :=
      activeLeases.enum.map (fun p => mkPendingInvoice now logId (suffix p.1) p.2)
    let affectedProperties := (activeLeases.map (fun l => l.id)).dedup
    let s2 := { s1 with pendingInvoices := s1.pendingInvoices ++ generatedInvoices }
    let s3 := { s2 with
      generationLogs := s2.generationLogs.map (fun (lg : GenerationLog) =>
        if lg.id == logId then
          { lg with
            invoicesGenerated := generatedInvoices.length,
            propertiesAffected := affectedProperties.length,
            details := "Successfully generated " ++ toString generatedInvoices.length ++
              " invoices for review. Status: Pending Admin Review" }
        else lg) }
    (s3, some { success := true, invoicesGenerated := generatedInvoices.length,
                propertiesAffected := affectedProperties.length, logId := logId })

/-- The invoice row `finalizePendingInvoices` builds from a pending
row: all line amounts, dates, number and notes carried over,
`paidAmount = "0.00"` (0 cents) and `status = "unpaid"`. -/
def toInvoice (p : PendingInvoice) : Invoice :=
  { leaseId := p.leaseId
    invoiceNumber := p.invoiceNumber
    invoiceDate := p.invoiceDate
    dueDate := p.dueDate
    periodStart := p.periodStart
    periodEnd := p.periodEnd
    rentAmount := p.rentAmount
    serviceChargeAmount := p.serviceChargeAmount
    utilitiesAmount := p.utilitiesAmount
    totalAmount := p.totalAmount
    paidAmount := 0
    status := "unpaid"
    notes := p.notes }

/-- The function `finalizePendingInvoices(logId)` as a pure state transformer: select
the pending rows of the log; if none, `return;` (modelled as `none`);
otherwise insert the converted invoices, then delete the pending rows,
then mark the log `finalized`. -/
def finalizePendingInvoices (s : DBState) (logId : Int) :
    DBState × Option FinalizeResult :=
  let pending := s.pendingInvoices.filter (fun p => p.generationLogId == logId)
  if pending.isEmpty then (s, none)
  else
    let invoicesToCreate := pending.map toInvoice
    let s1 := { s with invoices := s.invoices ++ invoicesToCreate }
    let s2 := { s1 with
      pendingInvoices := s1.pendingInvoices.filter
        (fun p => !(p.generationLogId == logId)) }
    let s3 := { s2 with
      generationLogs := s2.generationLogs.map (fun (lg : GenerationLog) =>
        if lg.id == logId then
          { lg with status := "finalized",
                    details := "Finalized " ++ toString invoicesToCreate.length ++
                      " invoices. Ready for collection." }
        else lg) }
    (s3, some { success := true, invoicesFinalized := invoicesToCreate.length })

/-- The sequence of store states a run of `finalizePendingInvoices`
passes through, one entry per completed storage statement: initial,
after the invoice bulk insert, after the pending-row delete, after the
log update.  A crash mid-operation leaves the store in one of these
states. -/
def finalizeTrace (s : DBState) (logId : Int) : List DBState :=
  let pending := s.pendingInvoices.filter (fun p => p.generationLogId == logId)
  if pending.isEmpty then [s]
  else
    let invoicesToCreate := pending.map toInvoice
    let s1 := { s with invoices := s.invoices ++ invoicesToCreate }
    let s2 := { s1 with
      pendingInvoices := s1.pendingInvoices.filter
        (fun p => !(p.generationLogId == logId)) }
    let s3 := { s2 with
      generationLogs := s2.generationLogs.map (fun (lg : GenerationLog) =>
        if lg.id == logId then
          { lg with status := "finalized",
                    details := "Finalized " ++ toString invoicesToCreate.length ++
                      " invoices. Ready for collection." }
        else lg) }
    [s, s1, s2, s3]

/-! ### Payment matching engine (`currency.ts`) -/

/-- A row of the `tenants` table (fields read by the matcher; `phone` is
a `NOT NULL` varchar, so it is a plain — possibly empty — string). -/
structure Tenant where
  id : Int
  firstName : String
  lastName : String
  phone : String
deriving DecidableEq, Repr

/-- The `Date` value stored in a `ParsedPayment`: built from the date
column's text, invalid when the row is too short for the date column, or
"now" when the feed has no date column.  The matcher never inspects it,
so it is carried uninterpreted. -/
inductive JsDateVal where
  | fromString (s : String)
  | invalid
  | now
deriving DecidableEq, Repr

/-- The `ParsedPayment` record of `currency.ts`. -/
structure ParsedPayment where
  paymentDate : JsDateVal
  amount : ℚ
  payerName : String
  phoneNumber : Option String
  referenceCode : Option String
  description : Option String
deriving DecidableEq, Repr

/-- The `MatchResult` record of `currency.ts`. -/
structure MatchResult where
  tenantId : Option Int
  matchStatus : String
  matchConfidence : Int
  matchReason : Option String
deriving DecidableEq, Repr

/-- The function `normalizePhoneNumber`, i.e. strip non-digits and keep the last 9:
every non-digit character, keep the last 9 digits (all of them when
fewer). -/
def normalizePhoneNumber (phone : String) : String :=
  let digits := phone.toList.filter Char.isDigit
  String.mk (digits.drop (digits.length - 9))

/-- One row-update step of the single-row Levenshtein loop of
`getEditDistance`: `s2rest` is the remaining suffix of the second
string, `diag` the previous row's entry one column back, `prevRest` the
remaining previous-row entries, `left` the entry of the new row just
computed.  A matching character keeps the diagonal value; otherwise
1 + min of diagonal, left and above — exactly the `costs` update of the
source. -/
def levRowAux (c : Char) : List Char → Nat → List Nat → Nat → List Nat
  | [], _, _, _ => []
  | _ :: _, _, [], _ => []
  | d :: ds, diag, above :: prevRest, left =>
    let cur := if c = d then diag else Nat.min (Nat.min diag left) above + 1
    cur :: levRowAux c ds above prevRest cur

/-- The full next Levenshtein row for character `c` of the first string:
first entry `prev₀ + 1` (one more deletion), then `levRowAux` across the
row. -/
def levNextRow (c : Char) (s2 : List Char) (prev : List Nat) : List Nat :=
  match prev with
  | [] => []
  | p0 :: rest => (p0 + 1) :: levRowAux c s2 p0 rest (p0 + 1)

/-- The function `getEditDistance`: the classic single-row dynamic-programming
Levenshtein distance of the source, with initial row `0..n` and final
answer `costs[s2.length]` (the last entry of the last row). -/
def getEditDistance (s1 s2 : String) : Nat :=
  let l2 := s2.toList
  let finalRow := s1.toList.foldl (fun row c => levNextRow c l2 row)
    (List.range (l2.length + 1))
  finalRow.getLastD 0

/-- The similarity ratio `(len - ed) / len * 100` as an exact rational,
built with `mkRat` so that it evaluates by kernel reduction;
`simRatio_eq_formula` below proves it equal to the literal quotient
formula of the source. -/
def simRatio (len ed : Nat) : ℚ := mkRat (((len : Int) - (ed : Int)) * 100) len

/-- The function `calculateSimilarity`: lower-case and trim both strings; identical
strings (and two empty strings) score 100; otherwise
`(longer.length - editDistance) / longer.length * 100`, here in exact
rational arithmetic.  The source computes this quotient in IEEE-754
doubles; the double differs from the exact value by less than 1e-12,
which never crosses the 60 / 70 comparison thresholds or changes
`Math.round` except when the exact value sits on a decision boundary —
and on the boundary values that arise (k/n·100 ∈ {60, 70}, whose double
computations land on 60.0 exactly and just below 70.0) every comparison
made by the matcher comes out the same, so the rational model decides
every branch below exactly as the code does. -/
def calculateSimilarity (str1 str2 : String) : ℚ :=
  let s1 := jsTrim (jsToLower str1)
  let s2 := jsTrim (jsToLower str2)
  if s1 = s2 then 100
  else
    let longer := if s1.length > s2.length then s1 else s2
    let shorter := if s1.length > s2.length then s2 else s1
    if longer.length = 0 then 100
    else simRatio longer.length (getEditDistance longer shorter)

/-- Models `Math.round`: round half toward positive infinity, floor of x + 1/2,
computed on the fraction as `(2·num + den) / (2·den)` with floor
division; `jsRound_eq_floor` below proves the equality. -/
def jsRound (q : ℚ) : Int := (2 * q.num + q.den) / (2 * (q.den : Int))

/-- The phone-matching loop of `autoMatchPaymentToTenant`: the first
tenant whose (truthy, i.e. non-empty) phone normalizes to the same
string as the payment's normalized phone. -/
def findPhoneMatch (normalizedPhone : String) (pool : List Tenant) : Option Tenant :=
  pool.find? (fun t =>
    t.phone != "" && (normalizePhoneNumber t.phone == normalizedPhone))

/-- The lowercased `"first last"` full name the matcher scores against. -/
def tenantFullName (t : Tenant) : String :=
  jsToLower (t.firstName ++ " " ++ t.lastName)

/-- The similarity the matcher computes between a payer name and a
tenant. -/
def nameSimilarity (payerName : String) (t : Tenant) : ℚ :=
  calculateSimilarity payerName (tenantFullName t)

/-- The `bestMatch` accumulator of the name-matching loop. -/
structure BestMatch where
  tenant : Option Tenant
  similarity : ℚ
  confidence : Int
deriving DecidableEq, Repr

/-- One iteration of the name-matching loop: update the accumulator when
the tenant clears the 60 floor and strictly beats the best similarity so
far. -/
def bestMatchStep (payerName : String) (best : BestMatch) (t : Tenant) : BestMatch :=
  let similarity := nameSimilarity payerName t
  if 60 < similarity ∧ best.similarity < similarity then
    { tenant := some t, similarity := similarity, confidence := jsRound similarity }
  else best

/-- The name-matching loop over the tenant pool, starting from the
`{ tenant: null, similarity: 0, confidence: 0 }` accumulator. -/
def bestNameMatch (payerName : String) (pool : List Tenant) : BestMatch :=
  pool.foldl (bestMatchStep payerName) ⟨none, 0, 0⟩

/-- The name-based tail of `autoMatchPaymentToTenant`: matched when a
best candidate exists and its rounded confidence exceeds 70, otherwise
unmatched carrying whatever confidence was reached. -/
def nameMatchResult (payerName : String) (pool : List Tenant) : MatchResult :=
  let best := bestNameMatch payerName pool
  match best.tenant with
  | some t =>
    if 70 < best.confidence then
      { tenantId := some t.id, matchStatus := "matched",
        matchConfidence := best.confidence,
        matchReason := some ("Name match (" ++ toString best.confidence ++ "% similarity)") }
    else
      { tenantId := none, matchStatus := "unmatched",
        matchConfidence := best.confidence,
        matchReason := some "No clear match found" }
  | none =>
    { tenantId := none, matchStatus := "unmatched",
      matchConfidence := best.confidence,
      matchReason := some "No clear match found" }

/-- The phone-priority stage: `if (payment.phoneNumber)` (truthy, so a
present non-empty string) scan the pool with `findPhoneMatch`. -/
def phoneMatchAttempt (payment : ParsedPayment) (pool : List Tenant) : Option Tenant :=
  match payment.phoneNumber with
  | some p => if p != "" then findPhoneMatch (normalizePhoneNumber p) pool else none
  | none => none

/-- The function `autoMatchPaymentToTenant` over a pool of tenants (the `SELECT *
FROM tenants` result): phone match first with confidence 100, otherwise
the fuzzy name match. -/
def autoMatchPaymentToTenant (payment : ParsedPayment) (pool : List Tenant) : MatchResult :=
  match phoneMatchAttempt payment pool with
  | some t =>
    { tenantId := some t.id, matchStatus := "matched", matchConfidence := 100,
      matchReason := some "Phone number match" }
  | none => nameMatchResult payment.payerName pool

/-! ### CSV payment feed parser (`parseCSVPayments`) -/

/-- Digit-string value (helper for `parseFloatQ`). -/
def digitsVal (l : List Char) : Nat :=
  l.foldl (fun a c => a * 10 + (c.toNat - '0'.toNat)) 0

/-- The signed exponent after the `e`/`E` of a numeric literal; an
absent digit sequence reads as exponent 0 (the exponent part is then
ignored, as `parseFloat` does). -/
def parseExpChars : List Char → Int
  | '-' :: r => -(digitsVal (r.takeWhile Char.isDigit) : Int)
  | '+' :: r => (digitsVal (r.takeWhile Char.isDigit) : Int)
  | r => (digitsVal (r.takeWhile Char.isDigit) : Int)

/-- The rational `sign · n0 · 10^expTotal`, built as a single `mkRat` so
that it evaluates by kernel reduction. -/
def decScale (sign : Int) (n0 : Nat) (expTotal : Int) : ℚ :=
  if 0 ≤ expTotal then mkRat (sign * n0 * 10 ^ expTotal.toNat) 1
  else mkRat (sign * n0) (10 ^ (-expTotal).toNat)

/-- Models `parseFloat` on the decimal-literal fragment it is fed here: skip
leading whitespace, optional sign, integer digits, optional `.` and
fraction digits, optional exponent, ignore any trailing garbage; `none`
models `NaN` (no digits at all).  The digits `i`, fraction `f` and
exponent `e` denote `±(i.f)·10^e = ±(i·10^|f| + f)·10^(e-|f|)`, produced
by `decScale`.  `Infinity` literals are outside the feed's modelled
domain. -/
def parseFloatQ (s : String) : Option ℚ :=
  let l := s.toList.dropWhile isJsSpace
  let sign : Int := match l with | '-' :: _ => -1 | _ => 1
  let l1 := match l with
    | '-' :: rest => rest
    | '+' :: rest => rest
    | _ => l
  let intPart := l1.takeWhile Char.isDigit
  let l2 := l1.dropWhile Char.isDigit
  let fracPart := match l2 with
    | '.' :: rest => rest.takeWhile Char.isDigit
    | _ => []
  let l3 := match l2 with
    | '.' :: rest => rest.dropWhile Char.isDigit
    | _ => l2
  if intPart.isEmpty ∧ fracPart.isEmpty then none
  else
    let n0 := digitsVal intPart * 10 ^ fracPart.length + digitsVal fracPart
    let e : Int := match l3 with
      | 'e' :: rest => parseExpChars rest
      | 'E' :: rest => parseExpChars rest
      | _ => 0
    some (decScale sign n0 (e - fracPart.length))

/-- The six header column indices located by substring match, `none`
standing for the source's `-1`. -/
structure HeaderIdxs where
  dateIdx : Option Nat
  amountIdx : Option Nat
  nameIdx : Option Nat
  phoneIdx : Option Nat
  refIdx : Option Nat
  descIdx : Option Nat
deriving DecidableEq, Repr

/-- Header parsing: split the header line on commas, trim and lower-case
each column name, and locate each canonical token by substring
(`findIndex` + `includes`, first hit wins). -/
def headerIdxs (headerLine : List Char) : HeaderIdxs :=
  let header := (splitChars ',' headerLine).map
    (fun h => (trimChars h).map lowerChar)
  { dateIdx := header.findIdx? (fun h => containsChars h "date".toList)
    amountIdx := header.findIdx? (fun h => containsChars h "amount".toList)
    nameIdx := header.findIdx? (fun h =>
      containsChars h "name".toList || containsChars h "payer".toList)
    phoneIdx := header.findIdx? (fun h => containsChars h "phone".toList)
    refIdx := header.findIdx? (fun h =>
      containsChars h "reference".toList || containsChars h "ref".toList)
    descIdx := header.findIdx? (fun h =>
      containsChars h "description".toList || containsChars h "note".toList) }

/-- The comma-split, field-trimmed parts of one data line. -/
def rowParts (line : List Char) : List (List Char) :=
  (splitChars ',' line).map trimChars

/-- The `Date` of a data line: parsed from the date column, invalid when
the line is too short for it (JavaScript `new Date(undefined)`), "now"
when the feed has no date column. -/
def rowDate (idxs : HeaderIdxs) (parts : List (List Char)) : JsDateVal :=
  match idxs.dateIdx with
  | some i =>
    match parts.get? i with
    | some f => JsDateVal.fromString (String.mk f)
    | none => JsDateVal.invalid
  | none => JsDateVal.now

/-- The amount of a data line: `parseFloat` of the amount column (`none`
models `NaN`, also when the line is too short for the column), 0 when
the feed has no amount column. -/
def rowAmount (idxs : HeaderIdxs) (parts : List (List Char)) : Option ℚ :=
  match idxs.amountIdx with
  | some i =>
    match parts.get? i with
    | some f => parseFloatQ (String.mk f)
    | none => none
  | none => some 0

/-- The payer name of a data line: the name column's field when the
column exists (`none` when the line is too short for it, i.e. JavaScript
`undefined`), the `"Unknown"` placeholder when the feed has NO name
column. -/
def rowName (idxs : HeaderIdxs) (parts : List (List Char)) : Option String :=
  match idxs.nameIdx with
  | some i => (parts.get? i).map String.mk
  | none => some "Unknown"

/-- Truthiness of `amount > 0` (false for `NaN`). -/
def amountPositive (a : Option ℚ) : Bool :=
  match a with
  | some q => decide (0 < q)
  | none => false

/-- Truthiness of the payer name (`""` and `undefined` are falsy). -/
def nameTruthy (n : Option String) : Bool :=
  match n with
  | some nm => nm != ""
  | none => false

/-- The per-data-line body of the parsing loop: split on commas and trim
the fields; skip lines with fewer than 2 fields; read date, amount and
payer name through the located column indices; keep the row only when
`amount > 0 && payerName` — `none` models a skipped row. -/
def parseRow (idxs : HeaderIdxs) (line : List Char) : Option ParsedPayment :=
  let parts := rowParts line
  if parts.length < 2 then none
  else
    let amount := rowAmount idxs parts
    let payerName := rowName idxs parts
    if amountPositive amount && nameTruthy payerName then
      some { paymentDate := rowDate idxs parts
             amount := amount.getD 0
             payerName := payerName.getD ""
             phoneNumber := idxs.phoneIdx.bind (fun i => (parts.get? i).map String.mk)
             referenceCode := idxs.refIdx.bind (fun i => (parts.get? i).map String.mk)
             description := idxs.descIdx.bind (fun i => (parts.get? i).map String.mk) }
    else none

/-- The function `parseCSVPayments`: trim the whole input, split on line breaks,
require a header plus at least one data line, derive the column indices
from the header and run the row loop over the remaining lines. -/
def parseCSVPayments (csvContent : String) : List ParsedPayment :=
  let lines := splitChars '\n' (trimChars csvContent.toList)
  if lines.length < 2 then []
  else
    let idxs := headerIdxs (lines.headD [])
    (lines.drop 1).filterMap (parseRow idxs)

/-! ### Concrete fixtures used by counterexamples and witnesses -/

/-- A concrete active lease: rent 10000.00, service charge 500.00. -/
def sampleLease : Lease := ⟨1, 1000000, 50000, "active"⟩

/-- A concrete pending invoice tagged with generation log 1. -/
def samplePending : PendingInvoice :=
  ⟨1, "INV-202501-ABC123", ⟨2025, 0, 15⟩, ⟨2025, 1, 10⟩, ⟨2025, 0, 1⟩, ⟨2025, 0, 31⟩,
   1000000, 50000, 0, 1050000, "Auto-generated invoice for January 2025", 1⟩

/-- A concrete generation log in `pending_review` state. -/
def sampleLog : GenerationLog := ⟨1, 1, 1, "pending_review", "generated"⟩

/-- A concrete store holding one lease, one pending invoice and its log. -/
def sampleState : DBState := ⟨[sampleLease], [samplePending], [], [sampleLog], 2⟩

/-- The 64-character default alphabet of the `nanoid` package the source
imports; note it contains `-` and `_`. -/
def nanoidAlphabet : List Char :=
  "useandom-26T198340PX75pxJACKVERYMINDBUSHWOLF_GQZbfghjklqvwyzrict".toList

/-- Modelled from the spec (§6 "stable string contract", and the repo
test's regex `/^INV-\d{6}-[A-Z0-9]{6}$/`): checker for the claimed
invoice-number format `INV-<4-digit year><2-digit month>-<6-char
alphanumeric>`. -/
def specInvoiceNumberFormat (s : String) : Bool :=
  match s.toList with
  | 'I' :: 'N' :: 'V' :: '-' :: rest =>
    (rest.take 6).length = 6 && (rest.take 6).all Char.isDigit &&
      (match rest.drop 6 with
       | '-' :: suffix => suffix.length = 6 && suffix.all Char.isAlphanum
       | _ => false)
  | _ => false

/-- A payment whose phone matches `tenantGrace` under normalization. -/
def payPhone : ParsedPayment :=
  ⟨JsDateVal.now, 100, "Completely Different", some "0712345678", none, none⟩

/-- A tenant whose phone carries a country-code prefix. -/
def tenantGrace : Tenant := ⟨3, "Grace", "Wanjiku", "+254 712 345 678"⟩

/-- A payment whose phone has no digits (normalizes to the empty
string). -/
def payEmptyPhone : ParsedPayment := ⟨JsDateVal.now, 100, "zz", some "abc", none, none⟩

/-- A tenant whose phone column holds the empty string. -/
def tenantEmptyPhone : Tenant := ⟨7, "Alice", "Smith", ""⟩

/-- A phoneless payment whose payer name scores exactly 70 against
`tenantDoeyy`. -/
def payName : ParsedPayment := ⟨JsDateVal.now, 100, "john dzzzy", none, none, none⟩

/-- The tenant `payName` scores 70 against. -/
def tenantDoeyy : Tenant := ⟨9, "John", "Doeyy", ""⟩

/-! ### Theorems -/

/-- The value `simRatio` is the literal `(len - ed) / len * 100` of the source. -/
theorem simRatio_eq_formula (len ed : Nat) (h : len ≠ 0) :
    simRatio len ed = ((len : ℚ) - ed) / len * 100 := by
  rw [simRatio, Rat.mkRat_eq_div]
  have hlen : (len : ℚ) ≠ 0 := Nat.cast_ne_zero.mpr h
  push_cast
  field_simp

/-- The function `jsRound` is `Math.round`, i.e. floor of x + 1/2. -/
theorem jsRound_eq_floor (q : ℚ) : jsRound q = ⌊q + 1 / 2⌋ := by
  have hd0 : ((q.den : ℚ)) ≠ 0 := Nat.cast_ne_zero.mpr q.den_nz
  have key : q + 1 / 2 = ((2 * q.num + (q.den : Int) : Int) : ℚ) / (((2 * q.den : Nat)) : ℚ) := by
    nth_rewrite 1 [← Rat.num_div_den q]
    push_cast
    field_simp
    ring
  rw [key, Rat.floor_intCast_div_natCast, jsRound]
  push_cast
  rfl

/-! ### Helper lemmas -/

/-- The pending-invoice rows after a generation run: the old rows
followed by one `mkPendingInvoice` row per active lease (also correct
for the empty early-return case, where nothing is appended). -/
theorem generate_pending_eq (s : DBState) (now : JsDate) (suffix : Nat → String) :
    (generateMonthlyInvoices s now suffix).1.pendingInvoices =
      s.pendingInvoices ++
        (s.leases.filter (fun l => l.status == "active")).enum.map
          (fun p => mkPendingInvoice now (if s.nextLogId == 0 then 1 else s.nextLogId)
            (suffix p.1) p.2) := by
  by_cases h : (s.leases.filter (fun l => l.status == "active")).isEmpty
  · have hnil : s.leases.filter (fun l => l.status == "active") = [] :=
      List.isEmpty_iff.mp h
    simp [generateMonthlyInvoices, h, hnil]
  · simp [generateMonthlyInvoices, h]

/-- The generation result object, when present, reports one generated
invoice per active lease. -/
theorem generate_result_count (s : DBState) (now : JsDate) (suffix : Nat → String)
    (r : GenerateResult) (hr : (generateMonthlyInvoices s now suffix).2 = some r) :
    r.invoicesGenerated = (s.leases.filter (fun l => l.status == "active")).length := by
  by_cases h : (s.leases.filter (fun l => l.status == "active")).isEmpty
  · simp [generateMonthlyInvoices, h] at hr
  · simp [generateMonthlyInvoices, h] at hr
    subst hr
    simp [List.enum_length]

/-! ### Claim theorems: invoice lifecycle -/

/-- C1: a run of `generateMonthlyInvoices` appends exactly one
`PendingInvoice` per active lease (one row per element of the active
filter, in order, with matching lease ids), and every generated row has
`rentAmount` the lease's rent, `serviceChargeAmount` the lease's service
charge, `utilitiesAmount = 0` and `totalAmount = rent + serviceCharge +
0`, held exactly in cents of the `DECIMAL(10,2)` column (hence an exact
two-fractional-digit decimal with no binary floating-point error, per
the header note); a successful result reports one generated invoice per
active lease. -/
theorem C1_generate_one_invoice_per_active_lease
    (s : DBState) (now : JsDate) (suffix : Nat → String) :
    (generateMonthlyInvoices s now suffix).1.pendingInvoices =
      s.pendingInvoices ++
        (s.leases.filter (fun l => l.status == "active")).enum.map
          (fun p => mkPendingInvoice now (if s.nextLogId == 0 then 1 else s.nextLogId)
            (suffix p.1) p.2)
    ∧ ((s.leases.filter (fun l => l.status == "active")).enum.map
          (fun p => mkPendingInvoice now (if s.nextLogId == 0 then 1 else s.nextLogId)
            (suffix p.1) p.2)).map PendingInvoice.leaseId =
        (s.leases.filter (fun l => l.status == "active")).map Lease.id
    ∧ (∀ (d : JsDate) (lid : Int) (suf : String) (lease : Lease),
        (mkPendingInvoice d lid suf lease).rentAmount = lease.monthlyRent
        ∧ (mkPendingInvoice d lid suf lease).serviceChargeAmount = lease.serviceCharge
        ∧ (mkPendingInvoice d lid suf lease).utilitiesAmount = 0
        ∧ (mkPendingInvoice d lid suf lease).totalAmount =
            lease.monthlyRent + lease.serviceCharge + 0
        ∧ (mkPendingInvoice d lid suf lease).leaseId = lease.id
        ∧ (mkPendingInvoice d lid suf lease).generationLogId = lid)
    ∧ (∀ r : GenerateResult, (generateMonthlyInvoices s now suffix).2 = some r →
        r.invoicesGenerated =
          (s.leases.filter (fun l => l.status == "active")).length) := by
  refine ⟨generate_pending_eq s now suffix, ?_, ?_, ?_⟩
  · rw [List.map_map]
    have h1 : (PendingInvoice.leaseId ∘ fun p : Nat × Lease =>
        mkPendingInvoice now (if s.nextLogId == 0 then 1 else s.nextLogId)
          (suffix p.1) p.2) = (fun p : Nat × Lease => p.2.id) := rfl
    rw [h1]
    have h2 : (fun p : Nat × Lease => p.2.id) = (Lease.id ∘ Prod.snd) := rfl
    rw [h2, ← List.map_map, List.enum_map_snd]
  · intro d lid suf lease
    exact ⟨rfl, rfl, rfl, rfl, rfl, rfl⟩
  · intro r hr
    exact generate_result_count s now suffix r hr

/-- C1 witness: on a store with one active lease (rent 10000.00, service
500.00) the run generates exactly one pending invoice with total
10500.00, reported as one generated invoice. -/
theorem C1_witness :
    ((generateMonthlyInvoices ⟨[sampleLease], [], [], [], 1⟩ ⟨2025, 0, 15⟩
        (fun _ => "abc123")).1.pendingInvoices.map
      (fun p => (p.leaseId, p.totalAmount)) = [(1, 1050000)]) ∧
    (∀ r : GenerateResult,
      (generateMonthlyInvoices ⟨[sampleLease], [], [], [], 1⟩ ⟨2025, 0, 15⟩
        (fun _ => "abc123")).2 = some r → r.invoicesGenerated = 1) := by
  have h := C1_generate_one_invoice_per_active_lease
    ⟨[sampleLease], [], [], [], 1⟩ ⟨2025, 0, 15⟩ (fun _ => "abc123")
  refine ⟨?_, ?_⟩
  · rw [h.1]
    decide
  · intro r hr
    have := h.2.2.2 r hr
    simpa using this

/-- C2: finalizing a log converts each of its pending rows into exactly
one invoice row (appended in order), carrying over every line amount,
the number, dates and notes, with `paidAmount = 0` cents (`"0.00"`) and
status `"unpaid"`, and deletes exactly the pending rows of that log. -/
theorem C2_finalize_roundtrip (s : DBState) (logId : Int) :
    (finalizePendingInvoices s logId).1.invoices =
      s.invoices ++
        (s.pendingInvoices.filter (fun p => p.generationLogId == logId)).map toInvoice
    ∧ (finalizePendingInvoices s logId).1.pendingInvoices =
        s.pendingInvoices.filter (fun p => !(p.generationLogId == logId))
    ∧ (∀ p : PendingInvoice,
        (toInvoice p).rentAmount = p.rentAmount
        ∧ (toInvoice p).serviceChargeAmount = p.serviceChargeAmount
        ∧ (toInvoice p).utilitiesAmount = p.utilitiesAmount
        ∧ (toInvoice p).totalAmount = p.totalAmount
        ∧ (toInvoice p).paidAmount = 0
        ∧ (toInvoice p).status = "unpaid"
        ∧ (toInvoice p).invoiceNumber = p.invoiceNumber
        ∧ (toInvoice p).leaseId = p.leaseId
        ∧ (toInvoice p).notes = p.notes) := by
  by_cases h : (s.pendingInvoices.filter (fun p => p.generationLogId == logId)).isEmpty
  · have hnil : s.pendingInvoices.filter (fun p => p.generationLogId == logId) = [] :=
      List.isEmpty_iff.mp h
    have hall : ∀ p ∈ s.pendingInvoices, ¬(p.generationLogId == logId) = true := by
      intro p hp
      exact List.filter_eq_nil_iff.mp hnil p hp
    refine ⟨?_, ?_, ?_⟩
    · simp [finalizePendingInvoices, h, hnil]
    · rw [show (finalizePendingInvoices s logId).1 = s by simp [finalizePendingInvoices, h]]
      rw [List.filter_eq_self.mpr]
      intro p hp
      simp [hall p hp]
    · intro p
      exact ⟨rfl, rfl, rfl, rfl, rfl, rfl, rfl, rfl, rfl⟩
  · refine ⟨?_, ?_, ?_⟩
    · simp [finalizePendingInvoices, h]
    · simp [finalizePendingInvoices, h]
    · intro p
      exact ⟨rfl, rfl, rfl, rfl, rfl, rfl, rfl, rfl, rfl⟩

/-- A `finalizePendingInvoices` call finding no pending rows for the log
is a no-op returning no result object. -/
theorem finalize_noop (s : DBState) (logId : Int)
    (h : s.pendingInvoices.filter (fun p => p.generationLogId == logId) = []) :
    finalizePendingInvoices s logId = (s, none) := by
  have hE : (s.pendingInvoices.filter (fun p => p.generationLogId == logId)).isEmpty = true := by
    rw [h]
    rfl
  simp [finalizePendingInvoices, hE]

/-- C3 (amended): a second `finalizePendingInvoices` on the same log id
is a complete no-op — it performs no writes (the store, including every
invoice row produced by the first call, is returned unchanged) and
returns no result object (`return;`, i.e. `undefined`) rather than a
zero-count success report. -/
theorem C3_finalize_idempotent (s : DBState) (logId : Int) :
    finalizePendingInvoices ((finalizePendingInvoices s logId).1) logId
      = ((finalizePendingInvoices s logId).1, none) := by
  by_cases h : (s.pendingInvoices.filter (fun p => p.generationLogId == logId)).isEmpty
  · have hnil : s.pendingInvoices.filter (fun p => p.generationLogId == logId) = [] :=
      List.isEmpty_iff.mp h
    have h1 : (finalizePendingInvoices s logId).1 = s := by
      rw [finalize_noop s logId hnil]
    rw [h1]
    exact finalize_noop s logId hnil
  · have h1 : (finalizePendingInvoices s logId).1.pendingInvoices =
        s.pendingInvoices.filter (fun p => !(p.generationLogId == logId)) := by
      simp [finalizePendingInvoices, h]
    apply finalize_noop
    rw [h1]
    apply List.filter_eq_nil_iff.mpr
    intro p hp
    have hneg := (List.mem_filter.mp hp).2
    simp at hneg ⊢
    exact hneg

/-- C3 counterexample: on a store holding one pending invoice for log 1,
the first finalize reports one invoice finalized, but the second call
returns `undefined` (no result object) — it does not "report zero
invoices finalized" as the claim states. -/
theorem C3_counterexample :
    (finalizePendingInvoices sampleState 1).2 = some ⟨true, 1⟩
    ∧ (finalizePendingInvoices (finalizePendingInvoices sampleState 1).1 1).2 = none
    ∧ (finalizePendingInvoices (finalizePendingInvoices sampleState 1).1 1).2 ≠
        some { success := true, invoicesFinalized := 0 } := by
  decide

/-- C5: along the storage-statement trace of `finalizePendingInvoices`
the invoice insert precedes the pending-row delete: the trace ends in
the function's final state, and in every intermediate store in which a
pending draft of the log is no longer present, its converted invoice is
already present — an abort mid-operation can leave duplicates but never
lose a draft. -/
theorem C5_insert_before_delete (s : DBState) (logId : Int) :
    (finalizeTrace s logId).getLast? = some (finalizePendingInvoices s logId).1
    ∧ ∀ st ∈ finalizeTrace s logId,
        ∀ p ∈ s.pendingInvoices.filter (fun q => q.generationLogId == logId),
          p ∉ st.pendingInvoices → toInvoice p ∈ st.invoices := by
  by_cases h : (s.pendingInvoices.filter (fun p => p.generationLogId == logId)).isEmpty
  · have hnil : s.pendingInvoices.filter (fun p => p.generationLogId == logId) = [] :=
      List.isEmpty_iff.mp h
    constructor
    · rw [finalize_noop s logId hnil]
      simp [finalizeTrace, h]
    · intro st _ p hp
      rw [hnil] at hp
      cases hp
  · have htr : finalizeTrace s logId =
        [s,
         { s with invoices := s.invoices ++
            (s.pendingInvoices.filter (fun p => p.generationLogId == logId)).map toInvoice },
         { s with
            invoices := s.invoices ++
              (s.pendingInvoices.filter (fun p => p.generationLogId == logId)).map toInvoice,
            pendingInvoices := s.pendingInvoices.filter
              (fun p => !(p.generationLogId == logId)) },
         (finalizePendingInvoices s logId).1] := by
      simp [finalizeTrace, finalizePendingInvoices, h]
    constructor
    · rw [htr]
      rfl
    · intro st hst p hp hdel
      have hmem : p ∈ s.pendingInvoices := List.mem_of_mem_filter hp
      have hinv : toInvoice p ∈ s.invoices ++
          (s.pendingInvoices.filter (fun q => q.generationLogId == logId)).map toInvoice :=
        List.mem_append_right _ (List.mem_map_of_mem toInvoice hp)
      rw [htr] at hst
      simp only [List.mem_cons, List.not_mem_nil, or_false] at hst
      rcases hst with h1 | h2 | h3 | h4
      · subst h1
        exact absurd hmem hdel
      · subst h2
        exact absurd hmem hdel
      · subst h3
        exact hinv
      · have h5 : (finalizePendingInvoices s logId).1.invoices =
            s.invoices ++
              (s.pendingInvoices.filter (fun q => q.generationLogId == logId)).map toInvoice := by
          simp [finalizePendingInvoices, h]
        subst h4
        rw [h5]
        exact hinv

/-- C5 witness: in the concrete store, the state reached right after the
delete statement has the draft gone and its invoice present. -/
theorem C5_witness :
    (samplePending ∈ sampleState.pendingInvoices.filter
        (fun q => q.generationLogId == (1 : Int)))
    ∧ ∀ st ∈ finalizeTrace sampleState 1,
        samplePending ∉ st.pendingInvoices → toInvoice samplePending ∈ st.invoices := by
  constructor
  · decide
  · intro st hst hdel
    exact (C5_insert_before_delete sampleState 1).2 st hst samplePending (by decide) hdel

/-- Evaluating `new Date(y, m+1, 10)` gives the 10th of the month after `m`, rolling
December over into January of the next year. -/
theorem mkDate_due (y : Int) (m : Nat) (hm : m ≤ 11) :
    mkDate y (m + 1) 10 = ⟨if m = 11 then y + 1 else y, (m + 1) % 12, 10⟩ := by
  by_cases h : m = 11
  · subst h
    norm_num [mkDate]
  · have h1 : (m + 1) / 12 = 0 := Nat.div_eq_of_lt (by omega)
    have h2 : (m + 1) % 12 = m + 1 := Nat.mod_eq_of_lt (by omega)
    simp [mkDate, h1, h2, h]

/-- Evaluating `new Date(y, m, 1)` gives the first of month `m`. -/
theorem mkDate_start (y : Int) (m : Nat) (hm : m ≤ 11) :
    mkDate y m 1 = ⟨y, m, 1⟩ := by
  have h1 : m / 12 = 0 := Nat.div_eq_of_lt (by omega)
  have h2 : m % 12 = m := Nat.mod_eq_of_lt (by omega)
  simp [mkDate, h1, h2]

/-- Evaluating `new Date(y, m+1, 0)` gives the last calendar day of month `m` of year
`y`, also across the December boundary. -/
theorem mkDate_end (y : Int) (m : Nat) (hm : m ≤ 11) :
    mkDate y (m + 1) 0 = ⟨y, m, daysInMonth y m⟩ := by
  by_cases h : m = 11
  · subst h
    have hy : y + ((12 / 12 : Nat) : Int) - 1 = y := by norm_num
    norm_num [mkDate]
  · have h1 : (m + 1) / 12 = 0 := Nat.div_eq_of_lt (by omega)
    have h2 : (m + 1) % 12 = m + 1 := Nat.mod_eq_of_lt (by omega)
    simp [mkDate, h1, h2]

/-- Every month has between 28 and 31 days. -/
theorem daysInMonth_bounds (y : Int) (m : Nat) (hm : m ≤ 11) :
    28 ≤ daysInMonth y m ∧ daysInMonth y m ≤ 31 := by
  interval_cases m <;> simp [daysInMonth] <;> split <;> omega

/-- C4: every pending invoice appended by a generation run at date `now`
(month 0–11 as `Date.getMonth` yields) has its due date on the 10th of
the month after the billing month — December rolling over to January of
the next year —, its period start on day 1 of the billing month, and its
period end on the last calendar day of the billing month, which lies
between 28 and 31 and equals 29 (leap year) or 28 in February. -/
theorem C4_generate_dates (s : DBState) (now : JsDate) (suffix : Nat → String)
    (hm : now.month ≤ 11) :
    ∀ p ∈ (generateMonthlyInvoices s now suffix).1.pendingInvoices,
      p ∈ s.pendingInvoices ∨
      (p.dueDate = ⟨if now.month = 11 then now.year + 1 else now.year, (now.month + 1) % 12, 10⟩
       ∧ p.periodStart = ⟨now.year, now.month, 1⟩
       ∧ p.periodEnd = ⟨now.year, now.month, daysInMonth now.year now.month⟩
       ∧ 28 ≤ daysInMonth now.year now.month
       ∧ daysInMonth now.year now.month ≤ 31
       ∧ daysInMonth now.year 1 = (if isLeapYear now.year then 29 else 28)) := by
  intro p hp
  rw [generate_pending_eq] at hp
  rcases List.mem_append.mp hp with hold | hnew
  · exact Or.inl hold
  · right
    rcases List.mem_map.mp hnew with ⟨a, _, heq⟩
    have hdue : p.dueDate = mkDate now.year (now.month + 1) 10 := by rw [← heq]; rfl
    have hstart : p.periodStart = mkDate now.year now.month 1 := by rw [← heq]; rfl
    have hend : p.periodEnd = mkDate now.year (now.month + 1) 0 := by rw [← heq]; rfl
    refine ⟨?_, ?_, ?_, (daysInMonth_bounds now.year now.month hm).1,
      (daysInMonth_bounds now.year now.month hm).2, rfl⟩
    · rw [hdue, mkDate_due now.year now.month hm]
    · rw [hstart, mkDate_start now.year now.month hm]
    · rw [hend, mkDate_end now.year now.month hm]

/-- C4 witness: a December 2025 run — the generated invoice's due date
lands on 10 January 2026, the period is 1 through 31 December 2025. -/
theorem C4_witness :
    (mkPendingInvoice ⟨2025, 11, 5⟩ 1 "abc123" sampleLease).dueDate = ⟨2026, 0, 10⟩
    ∧ (mkPendingInvoice ⟨2025, 11, 5⟩ 1 "abc123" sampleLease).periodStart = ⟨2025, 11, 1⟩
    ∧ (mkPendingInvoice ⟨2025, 11, 5⟩ 1 "abc123" sampleLease).periodEnd = ⟨2025, 11, 31⟩ := by
  have h := C4_generate_dates ⟨[sampleLease], [], [], [], 1⟩ ⟨2025, 11, 5⟩
    (fun _ => "abc123") (by decide)
    (mkPendingInvoice ⟨2025, 11, 5⟩ 1 "abc123" sampleLease) (by decide)
  have h3 := h.resolve_left (by decide)
  refine ⟨?_, ?_, ?_⟩
  · rw [h3.1]
    decide
  · rw [h3.2.1]
  · rw [h3.2.2.1]
    decide

/-- C9: the claimed format accepts a well-formed generated number, but
the `nanoid` draw `"x_3q-z"` — six characters of the default nanoid
alphabet, so a possible `nanoid(6)` output — makes the run emit
`INV-202501-X_3Q-Z`, whose suffix contains `_` and `-` and violates the
6-alphanumeric-character contract the spec and the repo's own test
assert. -/
theorem C9_invoice_number_format :
    specInvoiceNumberFormat "INV-202501-ABC123" = true
    ∧ ("x_3q-z".toList.length = 6 ∧ ∀ c ∈ "x_3q-z".toList, c ∈ nanoidAlphabet)
    ∧ (generateMonthlyInvoices ⟨[sampleLease], [], [], [], 1⟩ ⟨2025, 0, 15⟩
        (fun _ => "x_3q-z")).1.pendingInvoices.map PendingInvoice.invoiceNumber
        = ["INV-202501-X_3Q-Z"]
    ∧ specInvoiceNumberFormat "INV-202501-X_3Q-Z" = false := by
  decide

/-- Decomposition of a successful `find?`: the found element satisfies
the predicate and everything before it fails it. -/
theorem find_eq_some_split {α : Type} (pred : α → Bool) :
    ∀ (l : List α) (a : α), l.find? pred = some a →
      pred a = true ∧ ∃ l1 l2, l = l1 ++ a :: l2 ∧ ∀ x ∈ l1, pred x = false := by
  intro l
  induction l with
  | nil =>
    intro a h
    cases h
  | cons x xs ih =>
    intro a h
    by_cases hx : pred x = true
    · rw [List.find?_cons_of_pos _ hx] at h
      injection h with h
      subst h
      exact ⟨hx, [], xs, rfl, by intro u hu; cases hu⟩
    · rw [List.find?_cons_of_neg _ (by simpa using hx)] at h
      obtain ⟨hpa, l1, l2, heq, hall⟩ := ih a h
      refine ⟨hpa, x :: l1, l2, by rw [heq, List.cons_append], ?_⟩
      intro u hu
      rcases List.mem_cons.mp hu with h1 | h2
      · subst h1
        simpa using hx
      · exact hall u h2

/-- If `q ≤ n` then `Math.round q ≤ n` (for integer `n`). -/
theorem jsRound_le_of_le (q : ℚ) (n : Int) (h : q ≤ (n : ℚ)) : jsRound q ≤ n := by
  rw [jsRound_eq_floor]
  have h2 : q + 1 / 2 ≤ (n : ℚ) + 1 / 2 := by linarith
  have h3 : ⌊q + 1 / 2⌋ ≤ ⌊(n : ℚ) + 1 / 2⌋ := Int.floor_le_floor h2
  have h4 : ⌊(n : ℚ) + 1 / 2⌋ = n + ⌊(1 / 2 : ℚ)⌋ := Int.floor_int_add n (1 / 2)
  have h5 : ⌊(1 / 2 : ℚ)⌋ = 0 := by norm_num
  omega

/-- If `n ≤ q` then `n ≤ Math.round q` (for integer `n`). -/
theorem le_jsRound_of_le (n : Int) (q : ℚ) (h : (n : ℚ) ≤ q) : n ≤ jsRound q := by
  rw [jsRound_eq_floor]
  apply Int.le_floor.mpr
  linarith

/-- Characterization of the name-matching fold from an arbitrary
accumulator: either no tenant clears both the 60 floor and the
running-best similarity (the accumulator survives unchanged), or the
result records the first tenant attaining the maximal similarity among
those above the floor — every earlier tenant scores strictly lower or
at most 60, every later one scores no higher or at most 60 (the strict
`>` update keeps the first of an exact tie). -/
theorem bestMatch_fold_char (name : String) (pool : List Tenant) :
    ∀ acc : BestMatch,
      (pool.foldl (bestMatchStep name) acc = acc ∧
        ∀ t ∈ pool, ¬(60 < nameSimilarity name t ∧ acc.similarity < nameSimilarity name t))
      ∨ (∃ l1 b l2, pool = l1 ++ b :: l2
          ∧ pool.foldl (bestMatchStep name) acc =
              ⟨some b, nameSimilarity name b, jsRound (nameSimilarity name b)⟩
          ∧ 60 < nameSimilarity name b
          ∧ acc.similarity < nameSimilarity name b
          ∧ (∀ t ∈ l1, nameSimilarity name t ≤ 60 ∨
              nameSimilarity name t < nameSimilarity name b)
          ∧ (∀ t ∈ l2, nameSimilarity name t ≤ 60 ∨
              nameSimilarity name t ≤ nameSimilarity name b)) := by
  induction pool with
  | nil =>
    intro acc
    left
    exact ⟨rfl, by intro t ht; cases ht⟩
  | cons t ts ih =>
    intro acc
    by_cases hc : 60 < nameSimilarity name t ∧ acc.similarity < nameSimilarity name t
    · have hstep : bestMatchStep name acc t =
          ⟨some t, nameSimilarity name t, jsRound (nameSimilarity name t)⟩ := by
        rw [bestMatchStep, if_pos hc]
      rw [List.foldl_cons, hstep]
      rcases ih ⟨some t, nameSimilarity name t, jsRound (nameSimilarity name t)⟩ with
        ⟨heq, hall⟩ | ⟨l1, b, l2, hsplit, heq, hb60, hacc, hl1, hl2⟩
      · right
        refine ⟨[], t, ts, rfl, heq, hc.1, hc.2, ?_, ?_⟩
        · intro u hu
          cases hu
        · intro u hu
          have hnu := hall u hu
          by_cases h60 : 60 < nameSimilarity name u
          · right
            by_contra hgt
            push_neg at hgt
            exact hnu ⟨h60, hgt⟩
          · left
            exact le_of_not_lt h60
      · right
        refine ⟨t :: l1, b, l2, by rw [hsplit, List.cons_append], heq, hb60,
          lt_trans hc.2 hacc, ?_, hl2⟩
        intro u hu
        rcases List.mem_cons.mp hu with h1 | h2
        · subst h1
          right
          exact hacc
        · exact hl1 u h2
    · have hstep : bestMatchStep name acc t = acc := by
        rw [bestMatchStep, if_neg hc]
      rw [List.foldl_cons, hstep]
      rcases ih acc with ⟨heq, hall⟩ | ⟨l1, b, l2, hsplit, heq, hb60, hacc, hl1, hl2⟩
      · left
        refine ⟨heq, ?_⟩
        intro u hu
        rcases List.mem_cons.mp hu with h1 | h2
        · subst h1
          exact hc
        · exact hall u h2
      · right
        refine ⟨t :: l1, b, l2, by rw [hsplit, List.cons_append], heq, hb60, hacc, ?_, hl2⟩
        intro u hu
        rcases List.mem_cons.mp hu with h1 | h2
        · subst h1
          by_cases h60 : 60 < nameSimilarity name u
          · right
            have hle : ¬(acc.similarity < nameSimilarity name u) := fun hlt => hc ⟨h60, hlt⟩
            exact lt_of_le_of_lt (le_of_not_lt hle) hacc
          · left
            exact le_of_not_lt h60
        · exact hl1 u h2

/-- The name-matching loop at its actual initial accumulator: either no
tenant clears the 60 floor (result is the null accumulator), or the
result is the first tenant attaining the maximal similarity above the
floor (exact ties keep the first). -/
theorem bestNameMatch_char (name : String) (pool : List Tenant) :
    (bestNameMatch name pool = ⟨none, 0, 0⟩ ∧
      ∀ t ∈ pool, nameSimilarity name t ≤ 60)
    ∨ (∃ l1 b l2, pool = l1 ++ b :: l2
        ∧ bestNameMatch name pool =
            ⟨some b, nameSimilarity name b, jsRound (nameSimilarity name b)⟩
        ∧ 60 < nameSimilarity name b
        ∧ (∀ t ∈ l1, nameSimilarity name t ≤ 60 ∨
            nameSimilarity name t < nameSimilarity name b)
        ∧ (∀ t ∈ l2, nameSimilarity name t ≤ 60 ∨
            nameSimilarity name t ≤ nameSimilarity name b)) := by
  rcases bestMatch_fold_char name pool ⟨none, 0, 0⟩ with ⟨heq, hall⟩ |
    ⟨l1, b, l2, hsplit, heq, hb60, _, hl1, hl2⟩
  · left
    refine ⟨heq, ?_⟩
    intro u hu
    have hnu := hall u hu
    by_contra h60
    push_neg at h60
    have h0 : (0 : ℚ) < nameSimilarity name u := lt_trans (by norm_num) h60
    exact hnu ⟨h60, h0⟩
  · right
    exact ⟨l1, b, l2, hsplit, heq, hb60, hl1, hl2⟩

/-- C6 (amended): phone normalization keeps the last 9 digits (the
spec's two example numbers normalize to `"712345678"`), and when the
payment's phone is non-empty and its normalized form equals the
normalized phone of some tenant whose phone field is non-empty, the
matcher returns the first such tenant with status `"matched"`,
confidence 100 and reason `"Phone number match"` (capitalized as in the
code), regardless of name similarity. -/
theorem C6_phone_match_priority (payment : ParsedPayment) (pool : List Tenant)
    (p : String) (hp : payment.phoneNumber = some p) (hne : p ≠ "")
    (t : Tenant) (hfind : findPhoneMatch (normalizePhoneNumber p) pool = some t) :
    autoMatchPaymentToTenant payment pool =
      { tenantId := some t.id, matchStatus := "matched", matchConfidence := 100,
        matchReason := some "Phone number match" }
    ∧ t.phone ≠ "" ∧ normalizePhoneNumber t.phone = normalizePhoneNumber p
    ∧ (∃ l1 l2, pool = l1 ++ t :: l2 ∧
        ∀ u ∈ l1, ¬(u.phone ≠ "" ∧ normalizePhoneNumber u.phone = normalizePhoneNumber p))
    ∧ normalizePhoneNumber "0712-345-678" = "712345678"
    ∧ normalizePhoneNumber "+254 712 345 678" = "712345678" := by
  obtain ⟨hpred, l1, l2, hsplit, hbefore⟩ := find_eq_some_split _ pool t hfind
  rw [Bool.and_eq_true] at hpred
  have ht1 : t.phone ≠ "" := by simpa using hpred.1
  have ht2 : normalizePhoneNumber t.phone = normalizePhoneNumber p := by simpa using hpred.2
  have hatt : phoneMatchAttempt payment pool = some t := by
    simp only [phoneMatchAttempt, hp]
    rw [if_pos (bne_iff_ne.mpr hne)]
    exact hfind
  refine ⟨?_, ht1, ht2, ⟨l1, l2, hsplit, ?_⟩, by decide, by decide⟩
  · simp only [autoMatchPaymentToTenant, hatt]
  · intro u hu hcon
    have hfalse := hbefore u hu
    have htrue : (u.phone != "" && (normalizePhoneNumber u.phone ==
        normalizePhoneNumber p)) = true := by
      rw [Bool.and_eq_true]
      exact ⟨bne_iff_ne.mpr hcon.1, beq_iff_eq.mpr hcon.2⟩
    rw [hfalse] at htrue
    cases htrue

/-- C6 witness: a payment phone `"0712-345-678"`-style digits matching a
tenant stored with a `+254` country prefix is matched with confidence
100. -/
theorem C6_witness :
    payPhone.phoneNumber = some "0712345678"
    ∧ autoMatchPaymentToTenant payPhone [tenantGrace] =
        { tenantId := some 3, matchStatus := "matched", matchConfidence := 100,
          matchReason := some "Phone number match" } := by
  refine ⟨rfl, ?_⟩
  have h := C6_phone_match_priority payPhone [tenantGrace] "0712345678" rfl
    (by decide) tenantGrace (by decide)
  exact h.1

/-- C6 counterexample: the payment's normalized phone (`""`, no digits)
equals the normalized phone of the tenant whose phone column is the
empty string, yet the matcher skips that tenant (falsy phone) and
returns unmatched with confidence 0 — not matched with confidence 100
as the claim states; and the code's reason literal is capitalized
`"Phone number match"`, not the claim's `"phone number match"`. -/
theorem C6_counterexample :
    normalizePhoneNumber "abc" = normalizePhoneNumber ""
    ∧ payEmptyPhone.phoneNumber = some "abc"
    ∧ tenantEmptyPhone.phone = ""
    ∧ autoMatchPaymentToTenant payEmptyPhone [tenantEmptyPhone] =
        { tenantId := none, matchStatus := "unmatched", matchConfidence := 0,
          matchReason := some "No clear match found" }
    ∧ (autoMatchPaymentToTenant payEmptyPhone [tenantEmptyPhone]).matchConfidence ≠ 100
    ∧ "Phone number match" ≠ "phone number match" := by
  decide

/-- C7 (amended): on the name-matching path (no phone match), candidates
must score strictly above the 60 floor; the single best-scoring tenant
is kept under strict greater-than (an exact tie keeps the first
encountered); a match is returned exactly when the rounded similarity
exceeds 70; and when every tenant's similarity is at most 70 the matcher
returns unmatched with reason `"No clear match found"` (capitalized as
in the code) carrying whatever confidence was reached. -/
theorem C7_name_thresholds (payment : ParsedPayment) (pool : List Tenant)
    (hphone : phoneMatchAttempt payment pool = none) :
    ((∀ t ∈ pool, nameSimilarity payment.payerName t ≤ 70) →
      autoMatchPaymentToTenant payment pool =
        { tenantId := none, matchStatus := "unmatched",
          matchConfidence := (bestNameMatch payment.payerName pool).confidence,
          matchReason := some "No clear match found" })
    ∧ ((bestNameMatch payment.payerName pool).tenant = none →
        ∀ t ∈ pool, nameSimilarity payment.payerName t ≤ 60)
    ∧ (∀ b, (bestNameMatch payment.payerName pool).tenant = some b →
        60 < nameSimilarity payment.payerName b
        ∧ (∃ l1 l2, pool = l1 ++ b :: l2
            ∧ (∀ t ∈ l1, nameSimilarity payment.payerName t ≤ 60 ∨
                nameSimilarity payment.payerName t < nameSimilarity payment.payerName b)
            ∧ (∀ t ∈ l2, nameSimilarity payment.payerName t ≤ 60 ∨
                nameSimilarity payment.payerName t ≤ nameSimilarity payment.payerName b))
        ∧ autoMatchPaymentToTenant payment pool =
            (if 70 < jsRound (nameSimilarity payment.payerName b) then
              { tenantId := some b.id, matchStatus := "matched",
                matchConfidence := jsRound (nameSimilarity payment.payerName b),
                matchReason := some ("Name match (" ++
                  toString (jsRound (nameSimilarity payment.payerName b)) ++ "% similarity)") }
            else
              { tenantId := none, matchStatus := "unmatched",
                matchConfidence := jsRound (nameSimilarity payment.payerName b),
                matchReason := some "No clear match found" })) := by
  rcases bestNameMatch_char payment.payerName pool with ⟨hbm, hall60⟩ |
    ⟨l1, b0, l2, hsplit, hbm, hb60, hl1, hl2⟩
  · refine ⟨?_, ?_, ?_⟩
    · intro _
      simp only [autoMatchPaymentToTenant, hphone, nameMatchResult, hbm]
    · intro _
      exact hall60
    · intro b hb
      rw [hbm] at hb
      cases hb
  · refine ⟨?_, ?_, ?_⟩
    · intro hall70
      have hbmem : b0 ∈ pool := by
        rw [hsplit]
        exact List.mem_append_right _ (List.mem_cons_self b0 l2)
      have hle70 : nameSimilarity payment.payerName b0 ≤ ((70 : Int) : ℚ) := by
        have := hall70 b0 hbmem
        norm_num
        exact this
      have hround : jsRound (nameSimilarity payment.payerName b0) ≤ 70 :=
        jsRound_le_of_le _ _ hle70
      simp only [autoMatchPaymentToTenant, hphone, nameMatchResult, hbm]
      rw [if_neg (not_lt.mpr hround)]
    · intro hnone
      rw [hbm] at hnone
      cases hnone
    · intro b hb
      rw [hbm] at hb
      have hb2 : b0 = b := by
        simpa using hb
      subst hb2
      refine ⟨hb60, ⟨l1, l2, hsplit, hl1, hl2⟩, ?_⟩
      simp only [autoMatchPaymentToTenant, hphone, nameMatchResult, hbm]

/-- C7 witness: a phoneless payment scoring exactly 70 against the only
tenant — above the candidate floor, not above the confirmation
threshold — comes back unmatched with confidence 70. -/
theorem C7_witness :
    phoneMatchAttempt payName [tenantDoeyy] = none
    ∧ nameSimilarity payName.payerName tenantDoeyy = 70
    ∧ autoMatchPaymentToTenant payName [tenantDoeyy] =
        { tenantId := none, matchStatus := "unmatched", matchConfidence := 70,
          matchReason := some "No clear match found" } := by
  refine ⟨by decide, by decide, ?_⟩
  have h := (C7_name_thresholds payName [tenantDoeyy] (by decide)).1
  have h2 := h (by decide)
  rw [h2]
  decide

/-- C7 counterexample: at an input where every similarity is at most 70
the matcher does return unmatched, but its reason literal is the
capitalized `"No clear match found"`, not the claim's exact string
`"no clear match found"`. -/
theorem C7_counterexample :
    (∀ t ∈ [tenantDoeyy], nameSimilarity payName.payerName t ≤ 70)
    ∧ (autoMatchPaymentToTenant payName [tenantDoeyy]).matchStatus = "unmatched"
    ∧ (autoMatchPaymentToTenant payName [tenantDoeyy]).matchReason =
        some "No clear match found"
    ∧ (autoMatchPaymentToTenant payName [tenantDoeyy]).matchReason ≠
        some "no clear match found" := by
  decide

/-- A `mkRat` with denominator 0 (never hit by the matcher, which guards
the zero-length case) is 0. -/
theorem simRatio_den_zero (ed : Nat) : simRatio 0 ed = 0 := by
  rw [simRatio]
  exact Rat.mkRat_zero _

/-- The similarity ratio never exceeds 100. -/
theorem simRatio_le_100 (len ed : Nat) : simRatio len ed ≤ 100 := by
  by_cases h : len = 0
  · subst h
    rw [simRatio_den_zero]
    norm_num
  · rw [simRatio_eq_formula _ _ h]
    have hpos : (0 : ℚ) < (len : ℚ) := by
      exact_mod_cast Nat.pos_of_ne_zero h
    rw [div_mul_eq_mul_div, div_le_iff₀ hpos]
    have hed : (0 : ℚ) ≤ (ed : ℚ) := by positivity
    nlinarith

/-- Every `calculateSimilarity` value is 100 or a guarded similarity
ratio. -/
theorem calculateSimilarity_cases (s t : String) :
    calculateSimilarity s t = 100 ∨
    ∃ len ed, calculateSimilarity s t = simRatio len ed := by
  rw [calculateSimilarity]
  by_cases h1 : jsTrim (jsToLower s) = jsTrim (jsToLower t)
  · left
    simp [h1]
  · by_cases h2 : (if (jsTrim (jsToLower s)).length > (jsTrim (jsToLower t)).length
        then jsTrim (jsToLower s) else jsTrim (jsToLower t)).length = 0
    · left
      simp [h1, h2]
    · right
      refine ⟨(if (jsTrim (jsToLower s)).length > (jsTrim (jsToLower t)).length
          then jsTrim (jsToLower s) else jsTrim (jsToLower t)).length,
        getEditDistance
          (if (jsTrim (jsToLower s)).length > (jsTrim (jsToLower t)).length
            then jsTrim (jsToLower s) else jsTrim (jsToLower t))
          (if (jsTrim (jsToLower s)).length > (jsTrim (jsToLower t)).length
            then jsTrim (jsToLower t) else jsTrim (jsToLower s)), ?_⟩
      simp [h1, h2]

/-- Similarity never exceeds 100. -/
theorem calculateSimilarity_le_100 (s t : String) : calculateSimilarity s t ≤ 100 := by
  rcases calculateSimilarity_cases s t with h | ⟨len, ed, h⟩
  · rw [h]
  · rw [h]
    exact simRatio_le_100 len ed

/-- C10: the auto-matcher never returns the `"manual"` status (only
`"matched"` or `"unmatched"`), and its confidence is an integer between
0 and 100: exactly 100 when the phone stage matched, and otherwise
either 0 (no candidate above the floor) or the rounded name similarity
of some tenant in the pool. -/
theorem C10_match_result_invariants (payment : ParsedPayment) (pool : List Tenant) :
    ((autoMatchPaymentToTenant payment pool).matchStatus = "matched" ∨
      (autoMatchPaymentToTenant payment pool).matchStatus = "unmatched")
    ∧ (autoMatchPaymentToTenant payment pool).matchStatus ≠ "manual"
    ∧ 0 ≤ (autoMatchPaymentToTenant payment pool).matchConfidence
    ∧ (autoMatchPaymentToTenant payment pool).matchConfidence ≤ 100
    ∧ (match phoneMatchAttempt payment pool with
       | some _ => (autoMatchPaymentToTenant payment pool).matchConfidence = 100
       | none =>
           (autoMatchPaymentToTenant payment pool).matchConfidence = 0 ∨
           ∃ t ∈ pool, (autoMatchPaymentToTenant payment pool).matchConfidence =
             jsRound (nameSimilarity payment.payerName t)) := by
  cases hatt : phoneMatchAttempt payment pool with
  | some t =>
    have hres : autoMatchPaymentToTenant payment pool =
        { tenantId := some t.id, matchStatus := "matched", matchConfidence := 100,
          matchReason := some "Phone number match" } := by
      simp only [autoMatchPaymentToTenant, hatt]
    rw [hres]
    refine ⟨Or.inl rfl, ?_, ?_, ?_, rfl⟩
    · show ("matched" : String) ≠ "manual"
      decide
    · show (0 : Int) ≤ 100
      decide
    · show (100 : Int) ≤ 100
      decide
  | none =>
    rcases bestNameMatch_char payment.payerName pool with ⟨hbm, _⟩ |
      ⟨l1, b0, l2, hsplit, hbm, hb60, _, _⟩
    · have hres : autoMatchPaymentToTenant payment pool =
          { tenantId := none, matchStatus := "unmatched", matchConfidence := 0,
            matchReason := some "No clear match found" } := by
        simp only [autoMatchPaymentToTenant, hatt, nameMatchResult, hbm]
      rw [hres]
      exact ⟨Or.inr rfl, by decide, by decide, by decide, Or.inl rfl⟩
    · have hbmem : b0 ∈ pool := by
        rw [hsplit]
        exact List.mem_append_right _ (List.mem_cons_self b0 l2)
      have hge0 : 0 ≤ jsRound (nameSimilarity payment.payerName b0) := by
        apply le_jsRound_of_le
        have h60 : (60 : ℚ) < nameSimilarity payment.payerName b0 := hb60
        push_cast
        linarith
      have hle100 : jsRound (nameSimilarity payment.payerName b0) ≤ 100 := by
        apply jsRound_le_of_le
        have h100 := calculateSimilarity_le_100 payment.payerName (tenantFullName b0)
        rw [show ((100 : Int) : ℚ) = 100 by norm_num]
        exact h100
      have hres : autoMatchPaymentToTenant payment pool =
          (if 70 < jsRound (nameSimilarity payment.payerName b0) then
            { tenantId := some b0.id, matchStatus := "matched",
              matchConfidence := jsRound (nameSimilarity payment.payerName b0),
              matchReason := some ("Name match (" ++
                toString (jsRound (nameSimilarity payment.payerName b0)) ++ "% similarity)") }
          else
            { tenantId := none, matchStatus := "unmatched",
              matchConfidence := jsRound (nameSimilarity payment.payerName b0),
              matchReason := some "No clear match found" }) := by
        simp only [autoMatchPaymentToTenant, hatt, nameMatchResult, hbm]
      by_cases h70 : 70 < jsRound (nameSimilarity payment.payerName b0)
      · rw [hres, if_pos h70]
        refine ⟨Or.inl rfl, ?_, hge0, hle100, Or.inr ⟨b0, hbmem, rfl⟩⟩
        show ("matched" : String) ≠ "manual"
        decide
      · rw [hres, if_neg h70]
        refine ⟨Or.inr rfl, ?_, hge0, hle100, Or.inr ⟨b0, hbmem, rfl⟩⟩
        show ("unmatched" : String) ≠ "manual"
        decide

/-- C10 witness: concrete evaluation stays within the invariant. -/
theorem C10_witness :
    (autoMatchPaymentToTenant payName [tenantDoeyy]).matchStatus ≠ "manual"
    ∧ 0 ≤ (autoMatchPaymentToTenant payName [tenantDoeyy]).matchConfidence
    ∧ (autoMatchPaymentToTenant payName [tenantDoeyy]).matchConfidence ≤ 100 := by
  have h := C10_match_result_invariants payName [tenantDoeyy]
  exact ⟨h.2.1, h.2.2.1, h.2.2.2.1⟩

/-- A truthy amount is a parsed positive number. -/
theorem amountPositive_true (a : Option ℚ) (h : amountPositive a = true) :
    ∃ q, a = some q ∧ 0 < q := by
  cases a with
  | none => cases h
  | some q =>
    refine ⟨q, rfl, ?_⟩
    exact of_decide_eq_true h

/-- A truthy payer name is a present non-empty string. -/
theorem nameTruthy_true (n : Option String) (h : nameTruthy n = true) :
    ∃ nm, n = some nm ∧ nm ≠ "" := by
  cases n with
  | none => cases h
  | some nm =>
    refine ⟨nm, rfl, ?_⟩
    exact bne_iff_ne.mp h

/-- Every row `parseRow` keeps has a positive amount and a truthy payer
name, and the `"Unknown"` placeholder appears exactly on feeds with no
name column. -/
theorem parseRow_some (idxs : HeaderIdxs) (line : List Char) (pmt : ParsedPayment)
    (h : parseRow idxs line = some pmt) :
    0 < pmt.amount ∧ pmt.payerName ≠ "" ∧
      (idxs.nameIdx = none → pmt.payerName = "Unknown") := by
  simp only [parseRow] at h
  by_cases hlen : (rowParts line).length < 2
  · rw [if_pos hlen] at h
    cases h
  · rw [if_neg hlen] at h
    by_cases hg : (amountPositive (rowAmount idxs (rowParts line)) &&
        nameTruthy (rowName idxs (rowParts line))) = true
    · rw [if_pos hg] at h
      rw [Bool.and_eq_true] at hg
      obtain ⟨hA, hN⟩ := hg
      obtain ⟨q, haq, hq⟩ := amountPositive_true _ hA
      obtain ⟨nm, hnm, hne⟩ := nameTruthy_true _ hN
      injection h with h
      subst h
      refine ⟨?_, ?_, ?_⟩
      · show 0 < (rowAmount idxs (rowParts line)).getD 0
        rw [haq]
        exact hq
      · show (rowName idxs (rowParts line)).getD "" ≠ ""
        rw [hnm]
        exact hne
      · intro hnone
        have hunk : rowName idxs (rowParts line) = some "Unknown" := by
          simp [rowName, hnone]
        show (rowName idxs (rowParts line)).getD "" = "Unknown"
        rw [hunk]
        rfl
    · rw [if_neg hg] at h
      cases h

/-- C8 (amended): kept rows have strictly positive amounts and non-empty
payer names (negative-amount rows are excluded); a header-only input
parses to the empty list; data lines with fewer than 2 comma-separated
fields are skipped; and the `"Unknown"` placeholder is used exactly when
the feed has NO name column — a blank name field under an existing name
column is falsy and drops the row. -/
theorem C8_parse_filters :
    (∀ csv : String, ∀ p ∈ parseCSVPayments csv, 0 < p.amount ∧ p.payerName ≠ "")
    ∧ (∀ csv : String, (splitChars '\n' (trimChars csv.toList)).length < 2 →
        parseCSVPayments csv = [])
    ∧ (∀ (idxs : HeaderIdxs) (line : List Char),
        (rowParts line).length < 2 → parseRow idxs line = none)
    ∧ (∀ (idxs : HeaderIdxs) (line : List Char) (pmt : ParsedPayment),
        parseRow idxs line = some pmt → idxs.nameIdx = none → pmt.payerName = "Unknown")
    ∧ (∀ (idxs : HeaderIdxs) (line : List Char) (i : Nat), idxs.nameIdx = some i →
        ((rowParts line).get? i = some [] ∨ (rowParts line).get? i = none) →
        parseRow idxs line = none) := by
  refine ⟨?_, ?_, ?_, ?_, ?_⟩
  · intro csv p hp
    simp only [parseCSVPayments] at hp
    by_cases hl : (splitChars '\n' (trimChars csv.toList)).length < 2
    · rw [if_pos hl] at hp
      cases hp
    · rw [if_neg hl] at hp
      obtain ⟨line, _, hrow⟩ := List.mem_filterMap.mp hp
      exact ⟨(parseRow_some _ _ _ hrow).1, (parseRow_some _ _ _ hrow).2.1⟩
  · intro csv h
    simp only [parseCSVPayments]
    rw [if_pos h]
  · intro idxs line h
    simp only [parseRow]
    rw [if_pos h]
  · intro idxs line pmt h hnone
    exact (parseRow_some _ _ _ h).2.2 hnone
  · intro idxs line i hi hblank
    simp only [parseRow]
    by_cases hlen : (rowParts line).length < 2
    · rw [if_pos hlen]
    · rw [if_neg hlen]
      have hrn : nameTruthy (rowName idxs (rowParts line)) = false := by
        rcases hblank with hb | hb
        · have hx : rowName idxs (rowParts line) = some (String.mk []) := by
            simp only [rowName, hi, hb, Option.map_some']
          rw [hx]
          decide
        · have hx : rowName idxs (rowParts line) = none := by
            simp only [rowName, hi, hb, Option.map_none']
          rw [hx]
          rfl
      rw [if_neg (by simp [hrn])]

/-- C8 witness: the spec's example feed keeps only the positive-amount
row; a header-only feed parses to nothing. -/
theorem C8_witness :
    (∀ p ∈ parseCSVPayments
        "Date,Amount,Payer Name\n2025-01-15,50000,John Doe\n2025-01-16,-1000,Jane Smith",
      0 < p.amount ∧ p.payerName ≠ "")
    ∧ parseCSVPayments "Date,Amount,Payer Name" = []
    ∧ (parseCSVPayments
        "Date,Amount,Payer Name\n2025-01-15,50000,John Doe\n2025-01-16,-1000,Jane Smith").map
          (fun p => (p.payerName, p.amount)) = [("John Doe", 50000)] := by
  refine ⟨?_, ?_, by decide⟩
  · intro p hp
    exact C8_parse_filters.1 _ p hp
  · exact C8_parse_filters.2.1 _ (by decide)

/-- C8 counterexample: a blank name field under an existing name column
is NOT defaulted to `"Unknown"` — the row is dropped; the placeholder is
applied instead when no name column exists at all, where the claim says
the row has no resolvable name.  Both directions contradict the claim's
"defaulting ... exactly when a name column exists but the field is
blank". -/
theorem C8_counterexample :
    parseCSVPayments "date,amount,name\n2025-01-15,100," = []
    ∧ parseCSVPayments "date,amount\n2025-01-15,100" =
        [{ paymentDate := JsDateVal.fromString "2025-01-15", amount := 100,
           payerName := "Unknown", phoneNumber := none, referenceCode := none,
           description := none }] := by
  decide

/-- C2 witness: finalizing the concrete store converts its one pending
invoice into exactly one invoice row and deletes the draft. -/
theorem C2_witness :
    (finalizePendingInvoices sampleState 1).1.invoices = [toInvoice samplePending]
    ∧ (finalizePendingInvoices sampleState 1).1.pendingInvoices = [] := by
  have h := C2_finalize_roundtrip sampleState 1
  refine ⟨?_, ?_⟩
  · rw [h.1]
    decide
  · rw [h.2.1]
    decide

/-- C3 witness: the double finalize on the concrete store. -/
theorem C3_witness :
    finalizePendingInvoices ((finalizePendingInvoices sampleState 1).1) 1
      = ((finalizePendingInvoices sampleState 1).1, none) :=
  C3_finalize_idempotent sampleState 1
